import Mathlib

/-!
A shallow embedding of the line-sheet ingestion-and-view-model pipeline
implemented in `src/components/client-line-sheet.tsx` and
`src/components/internal-line-sheet.tsx`.

Modelling conventions:
* JavaScript numbers are modelled as exact rationals (`ℚ`); `NaN` is
  modelled as `Option.none` in the number parsers.  Floating-point
  rounding and overflow to `Infinity` (including the literal string
  "Infinity", which `parseFloat` accepts) lie outside the model.
* JavaScript strings are Lean `String`s; `toLowerCase` is modelled by
  `jsToLower` (character-wise `Char.toLower`), whitespace by the ASCII
  whitespace characters.
* A parsed CSV row (the object Papa Parse hands to the `complete`
  callback in header mode) is a finite association list from
  (already `transformHeader`-normalized) header key to cell string;
  property access `row.key` is case-sensitive lookup, `Option.none`
  playing the role of `undefined`.
* The React state of each component is a record; every event handler
  (drop-complete callback, input `onChange`, select `onValueChange`,
  pagination button `onClick`) becomes a state-transition function.
-/

namespace LineSheet

/-- JS `String.prototype.toLowerCase`, character-wise. -/
def jsToLower (s : String) : String :=
  String.mk (s.data.map Char.toLower)

/-- ASCII whitespace characters, modelling the JS regex class `\s`
(restricted to ASCII, as in the CSV headers at issue). -/
def isJsWhitespace (c : Char) : Bool :=
  c = ' ' || c = '\t' || c = '\n' || c = '\r' || c = '\x0b' || c = '\x0c'

/-- Numeric value of a decimal digit string (most significant first). -/
def natOfDec : List Char → Nat
  | [] => 0
  | c :: cs => (c.toNat - 48) * 10 ^ cs.length + natOfDec cs

/-- Is `c` a hexadecimal digit? -/
def isHexDigitChar (c : Char) : Bool :=
  c.isDigit || ('a' ≤ c && c ≤ 'f') || ('A' ≤ c && c ≤ 'F')

/-- Numeric value of a hexadecimal digit. -/
def hexDigitVal (c : Char) : Nat :=
  if c.isDigit then c.toNat - 48
  else if 'a' ≤ c && c ≤ 'f' then c.toNat - 87
  else c.toNat - 55

/-- Numeric value of a hexadecimal digit string (most significant first). -/
def natOfHex : List Char → Nat
  | [] => 0
  | c :: cs => hexDigitVal c * 16 ^ cs.length + natOfHex cs

/-- Optional sign at the head of the character stream, as consumed by
`parseInt` and `parseFloat`: returns the sign and the rest. -/
def jsSign (cs : List Char) : Int × List Char :=
  match cs with
  | [] => (1, [])
  | c :: r => if c = '-' then (-1, r) else if c = '+' then (1, r) else (1, cs)

/-- Does the stream start with a `0x` / `0X` hex marker
(`parseInt` with unspecified radix)? -/
def hasHexMark (cs : List Char) : Bool :=
  match cs with
  | a :: b :: _ => a = '0' && (b = 'x' || b = 'X')
  | _ => false

/-- Magnitude part of `parseInt`: longest digit run, hex after a `0x`
marker, `none` when there is no digit (JS `NaN`). -/
def jsParseIntMag (cs : List Char) : Option Nat :=
  if hasHexMark cs then
    let ds := (cs.drop 2).takeWhile isHexDigitChar
    if ds = [] then none else some (natOfHex ds)
  else
    let ds := cs.takeWhile Char.isDigit
    if ds = [] then none else some (natOfDec ds)

/-- ECMAScript `parseInt` (radix argument omitted): skip leading
whitespace, optional sign, then the longest digit run; `none` models
`NaN`. -/
def jsParseInt (s : String) : Option Int :=
  let cs := s.data.dropWhile isJsWhitespace
  let sr := jsSign cs
  match jsParseIntMag sr.2 with
  | none => none
  | some n => some (sr.1 * n)

/-- Exponent suffix of a decimal literal, as consumed by `parseFloat`:
`e`/`E`, optional sign, digits; contributes factor `10 ^ result`.
A malformed exponent contributes 0 (it is simply not consumed). -/
def jsExpVal (cs : List Char) : Int :=
  match cs with
  | [] => 0
  | c :: r =>
    if c = 'e' || c = 'E' then
      let sr := jsSign r
      let ds := sr.2.takeWhile Char.isDigit
      if ds = [] then 0 else sr.1 * (natOfDec ds : Int)
    else 0

/-- ECMAScript `parseFloat` on the longest valid decimal-literal
NaN is `none`; `Infinity` is outside the model (see the file header). -/
def jsParseFloat (s : String) : Option ℚ :=
  let cs := s.data.dropWhile isJsWhitespace
  let sr := jsSign cs
  let ip := sr.2.takeWhile Char.isDigit
  let r1 := sr.2.dropWhile Char.isDigit
  let fr : List Char × List Char :=
    match r1 with
    | '.' :: r => (r.takeWhile Char.isDigit, r.dropWhile Char.isDigit)
    | _ => ([], r1)
  if ip = [] && fr.1 = [] then none
  else
    let mant : ℚ := (natOfDec ip : ℚ) + (natOfDec fr.1 : ℚ) / (10 : ℚ) ^ fr.1.length
    some ((sr.1 : ℚ) * mant * (10 : ℚ) ^ jsExpVal fr.2)

/-- JS `String.prototype.includes`: is `sub` a contiguous substring of
`hay`? -/
def jsIncludes (hay sub : String) : Bool :=
  decide (sub.data <:+: hay.data)

/-- JS `Array.prototype.slice(a, b)`: elements of `l` with index in
`[a, b)` after clamping (negative indices count from the end). -/
def jsSlice {α : Type} (l : List α) (a b : Int) : List α :=
  let n : Int := l.length
  let k := if a < 0 then max (n + a) 0 else min a n
  let f := if b < 0 then max (n + b) 0 else min b n
  (l.take f.toNat).drop k.toNat

/-- `Math.ceil(n / m)` for natural `n`, `m`: the JS expression
`Math.ceil(filteredItems.length / itemsPerPage)`. -/
def mathCeilDiv (n m : Nat) : Int :=
  ⌈(n : ℚ) / (m : ℚ)⌉

/-- A parsed CSV row in header mode: association list from
(`transformHeader`-normalized) key to cell string. -/
def RawRow : Type := List (String × String)

/-- The `transformHeader` option passed to Papa Parse by both variants:
`header.toLowerCase().replace(/\s+/g, '')`. -/
def transformHeader (h : String) : String :=
  String.mk ((jsToLower h).data.filter (fun c => !(isJsWhitespace c)))

/-- Pair a header line with one record line, applying `transformHeader`
to each header token, as Papa Parse does in header mode. -/
def buildRow (headers : List String) (vals : List String) : RawRow :=
  List.zip (headers.map transformHeader) vals

/-- The result Papa Parse hands to the `complete` callback: a list of
structural errors and the data rows. -/
structure ParseResult where
  errors : List String
  data : List RawRow

/-- `row.key || ''` for a string field: `undefined` (and the falsy
empty string) becomes `''`. -/
def jsOrEmpty (v : Option String) : String := v.getD ""

/-- `parseInt(row.key as string) || 0`: an absent key or an unparseable
value (`NaN`) becomes 0; `0` itself is falsy but `||` then yields the
same value 0. -/
def jsParseIntOr0 (v : Option String) : Int := (v.bind jsParseInt).getD 0

/-- `parseFloat(row.key as string) || 0`, analogously. -/
def jsParseFloatOr0 (v : Option String) : ℚ := (v.bind jsParseFloat).getD 0

/-- The record type of `client-line-sheet.tsx`. -/
structure ClientLineSheetItem where
  id : Int
  name : String
  balance : ℚ
  minOrderQuantity : Int
  sampleLeadTime : String
  bulkLeadTime : String
  status : String
  sizes : String
  fabricMaterial : String
  category : String
  imageUrl : String
deriving DecidableEq, Repr

/-- The body of `result.data.map((row, index) => ({...}))` in
`client-line-sheet.tsx` (`index` 0-based, as in JS `map`). -/
def coerceClient (row : RawRow) (index : Nat) : ClientLineSheetItem where
  id := (index : Int) + 1
  name := jsOrEmpty (row.lookup "name")
  balance := jsParseFloatOr0 (row.lookup "balance")
  minOrderQuantity := jsParseIntOr0 (row.lookup "minOrderQuantity")
  sampleLeadTime := jsOrEmpty (row.lookup "sampleLeadTime")
  bulkLeadTime := jsOrEmpty (row.lookup "bulkLeadTime")
  status := jsOrEmpty (row.lookup "status")
  sizes := jsOrEmpty (row.lookup "sizes")
  fabricMaterial := jsOrEmpty (row.lookup "fabricMaterial")
  category := jsOrEmpty (row.lookup "category")
  imageUrl := jsOrEmpty (row.lookup "imageUrl")

/-- The record type of `internal-line-sheet.tsx`. -/
structure InternalLineSheetItem where
  id : Int
  name : String
  minOrderQuantity : Int
  sampleCost : ℚ
  productionCost : ℚ
  factoryCost : ℚ
  shipping : String
  sampleLeadTime : String
  bulkLeadTime : String
  status : String
  note : String
  sizes : String
  fabricMaterial : String
  category : String
  imageUrl : String
  alibabaUrl : String
deriving DecidableEq, Repr

/-- The body of `result.data.map((row, index) => ({...}))` in
`internal-line-sheet.tsx`. -/
def coerceInternal (row : RawRow) (index : Nat) : InternalLineSheetItem where
  id := (index : Int) + 1
  name := jsOrEmpty (row.lookup "name")
  minOrderQuantity := jsParseIntOr0 (row.lookup "minOrderQuantity")
  sampleCost := jsParseFloatOr0 (row.lookup "sampleCost")
  productionCost := jsParseFloatOr0 (row.lookup "productionCost")
  factoryCost := jsParseFloatOr0 (row.lookup "factoryCost")
  shipping := jsOrEmpty (row.lookup "shipping")
  sampleLeadTime := jsOrEmpty (row.lookup "sampleLeadTime")
  bulkLeadTime := jsOrEmpty (row.lookup "bulkLeadTime")
  status := jsOrEmpty (row.lookup "status")
  note := jsOrEmpty (row.lookup "note")
  sizes := jsOrEmpty (row.lookup "sizes")
  fabricMaterial := jsOrEmpty (row.lookup "fabricMaterial")
  category := jsOrEmpty (row.lookup "category")
  imageUrl := jsOrEmpty (row.lookup "imageUrl")
  alibabaUrl := jsOrEmpty (row.lookup "alibabaUrl")

/-- `parsedData` of the client variant. -/
def clientParsedData (rows : List RawRow) : List ClientLineSheetItem :=
  rows.mapIdx (fun i row => coerceClient row i)

/-- `parsedData` of the internal variant. -/
def internalParsedData (rows : List RawRow) : List InternalLineSheetItem :=
  rows.mapIdx (fun i row => coerceInternal row i)

/-- The error message both variants set on a failed parse. -/
def parseErrorMsg : String := "Error parsing CSV file. Please check the file format."

/-- `calculateMargin` from `internal-line-sheet.tsx`. -/
def calculateMargin (productionCost factoryCost : ℚ) : ℚ :=
  if factoryCost = 0 then 0 else (productionCost - factoryCost) / factoryCost * 100

/-- The `viewMode` enum of the client variant. -/
inductive ViewMode where
  | grid
  | table
deriving DecidableEq, Repr

/-- The React state of `ClientLineSheet`. -/
structure ClientState where
  items : List ClientLineSheetItem
  currentPage : Int
  searchTerm : String
  statusFilter : String
  categoryFilter : String
  viewMode : ViewMode
  error : Option String
deriving DecidableEq, Repr

/-- The `useState` initial values of `ClientLineSheet`. -/
def clientInit : ClientState where
  items := []
  currentPage := 1
  searchTerm := ""
  statusFilter := "All"
  categoryFilter := "All"
  viewMode := ViewMode.grid
  error := none

/-- The `complete` callback of `Papa.parse` in `ClientLineSheet.onDrop`:
on any reported error set the message and return; otherwise install the
coerced batch and clear the error. -/
def clientComplete (result : ParseResult) (s : ClientState) : ClientState :=
  if result.errors.length > 0 then
    { s with error := some parseErrorMsg }
  else
    { s with items := clientParsedData result.data, error := none }

/-- The filter predicate of `filteredItems` in `client-line-sheet.tsx`. -/
def clientFilterPred (searchTerm statusFilter categoryFilter : String)
    (item : ClientLineSheetItem) : Bool :=
  jsIncludes (jsToLower item.name) (jsToLower searchTerm) &&
  (statusFilter == "All" || item.status == statusFilter) &&
  (categoryFilter == "All" || item.category == categoryFilter)

/-- `items.filter(...)` of `client-line-sheet.tsx`, as a function of the
three filter inputs. -/
def clientFilter (searchTerm statusFilter categoryFilter : String)
    (items : List ClientLineSheetItem) : List ClientLineSheetItem :=
  items.filter (clientFilterPred searchTerm statusFilter categoryFilter)

/-- `filteredItems` of `client-line-sheet.tsx`. -/
def clientFilteredItems (s : ClientState) : List ClientLineSheetItem :=
  clientFilter s.searchTerm s.statusFilter s.categoryFilter s.items

/-- `totalPages = Math.ceil(filteredItems.length / itemsPerPage)` with
`itemsPerPage = 9`. -/
def clientTotalPages (s : ClientState) : Int :=
  mathCeilDiv (clientFilteredItems s).length 9

/-- `startIndex = (currentPage - 1) * itemsPerPage`. -/
def clientStartIndex (s : ClientState) : Int :=
  (s.currentPage - 1) * 9

/-- `displayedItems = filteredItems.slice(startIndex, startIndex + itemsPerPage)`. -/
def clientDisplayedItems (s : ClientState) : List ClientLineSheetItem :=
  jsSlice (clientFilteredItems s) (clientStartIndex s) (clientStartIndex s + 9)

/-- The lower bound of the "Showing X-Y of Z" text: `startIndex + 1`. -/
def clientRangeLow (s : ClientState) : Int := clientStartIndex s + 1

/-- The upper bound of the "Showing X-Y of Z" text:
`Math.min(startIndex + itemsPerPage, filteredItems.length)`. -/
def clientRangeHigh (s : ClientState) : Int :=
  min (clientStartIndex s + 9) ((clientFilteredItems s).length : Int)

/-- User-driven events of the client view: drop-complete, the three
filter inputs, the view-mode select, and the two pagination buttons. -/
inductive ClientEvent where
  | ingest (result : ParseResult)
  | setSearch (v : String)
  | setCategory (v : String)
  | setStatus (v : String)
  | setView (v : ViewMode)
  | prevPage
  | nextPage

/-- One event-handler step of `ClientLineSheet`.  The filter inputs set
only their own state field.  The pagination buttons are rendered only
when `totalPages > 1` and are disabled at their bound, so their handlers
(`Math.max(prev - 1, 1)` / `Math.min(prev + 1, totalPages)`) fire only
under those conditions. -/
def clientStep (e : ClientEvent) (s : ClientState) : ClientState :=
  match e with
  | ClientEvent.ingest r => clientComplete r s
  | ClientEvent.setSearch v => { s with searchTerm := v }
  | ClientEvent.setCategory v => { s with categoryFilter := v }
  | ClientEvent.setStatus v => { s with statusFilter := v }
  | ClientEvent.setView v => { s with viewMode := v }
  | ClientEvent.prevPage =>
      if clientTotalPages s > 1 ∧ s.currentPage ≠ 1 then
        { s with currentPage := max (s.currentPage - 1) 1 }
      else s
  | ClientEvent.nextPage =>
      if clientTotalPages s > 1 ∧ s.currentPage ≠ clientTotalPages s then
        { s with currentPage := min (s.currentPage + 1) (clientTotalPages s) }
      else s

/-- States of `ClientLineSheet` reachable from the initial state by
event-handler steps. -/
inductive ClientReachable : ClientState → Prop where
  | init : ClientReachable clientInit
  | step : ∀ {s : ClientState}, ClientReachable s → ∀ e : ClientEvent,
      ClientReachable (clientStep e s)

/-- The React state of `InternalLineSheet` (no `viewMode`). -/
structure InternalState where
  items : List InternalLineSheetItem
  currentPage : Int
  searchTerm : String
  statusFilter : String
  categoryFilter : String
  error : Option String
deriving DecidableEq, Repr

/-- The `useState` initial values of `InternalLineSheet`. -/
def internalInit : InternalState where
  items := []
  currentPage := 1
  searchTerm := ""
  statusFilter := "All"
  categoryFilter := "All"
  error := none

/-- The `complete` callback of `Papa.parse` in `InternalLineSheet.onDrop`. -/
def internalComplete (result : ParseResult) (s : InternalState) : InternalState :=
  if result.errors.length > 0 then
    { s with error := some parseErrorMsg }
  else
    { s with items := internalParsedData result.data, error := none }

/-- The filter predicate of `filteredItems` in `internal-line-sheet.tsx`. -/
def internalFilterPred (searchTerm statusFilter categoryFilter : String)
    (item : InternalLineSheetItem) : Bool :=
  jsIncludes (jsToLower item.name) (jsToLower searchTerm) &&
  (statusFilter == "All" || item.status == statusFilter) &&
  (categoryFilter == "All" || item.category == categoryFilter)

/-- `items.filter(...)` of `internal-line-sheet.tsx`. -/
def internalFilter (searchTerm statusFilter categoryFilter : String)
    (items : List InternalLineSheetItem) : List InternalLineSheetItem :=
  items.filter (internalFilterPred searchTerm statusFilter categoryFilter)

/-- `filteredItems` of `internal-line-sheet.tsx`. -/
def internalFilteredItems (s : InternalState) : List InternalLineSheetItem :=
  internalFilter s.searchTerm s.statusFilter s.categoryFilter s.items

/-- `totalPages` with `itemsPerPage = 10`. -/
def internalTotalPages (s : InternalState) : Int :=
  mathCeilDiv (internalFilteredItems s).length 10

/-- `startIndex = (currentPage - 1) * itemsPerPage`. -/
def internalStartIndex (s : InternalState) : Int :=
  (s.currentPage - 1) * 10

/-- `displayedItems = filteredItems.slice(startIndex, startIndex + itemsPerPage)`. -/
def internalDisplayedItems (s : InternalState) : List InternalLineSheetItem :=
  jsSlice (internalFilteredItems s) (internalStartIndex s) (internalStartIndex s + 10)

/-- The lower bound of the "Showing X-Y of Z" text. -/
def internalRangeLow (s : InternalState) : Int := internalStartIndex s + 1

/-- The upper bound of the "Showing X-Y of Z" text. -/
def internalRangeHigh (s : InternalState) : Int :=
  min (internalStartIndex s + 10) ((internalFilteredItems s).length : Int)

/-- User-driven events of the internal view. -/
inductive InternalEvent where
  | ingest (result : ParseResult)
  | setSearch (v : String)
  | setCategory (v : String)
  | setStatus (v : String)
  | prevPage
  | nextPage

/-- One event-handler step of `InternalLineSheet`. -/
def internalStep (e : InternalEvent) (s : InternalState) : InternalState :=
  match e with
  | InternalEvent.ingest r => internalComplete r s
  | InternalEvent.setSearch v => { s with searchTerm := v }
  | InternalEvent.setCategory v => { s with categoryFilter := v }
  | InternalEvent.setStatus v => { s with statusFilter := v }
  | InternalEvent.prevPage =>
      if internalTotalPages s > 1 ∧ s.currentPage ≠ 1 then
        { s with currentPage := max (s.currentPage - 1) 1 }
      else s
  | InternalEvent.nextPage =>
      if internalTotalPages s > 1 ∧ s.currentPage ≠ internalTotalPages s then
        { s with currentPage := min (s.currentPage + 1) (internalTotalPages s) }
      else s

/-- States of `InternalLineSheet` reachable from the initial state. -/
inductive InternalReachable : InternalState → Prop where
  | init : InternalReachable internalInit
  | step : ∀ {s : InternalState}, InternalReachable s → ∀ e : InternalEvent,
      InternalReachable (internalStep e s)

/-- Spec-side reading of the Filter Engine contract (§4.4) for a client
record: case-insensitive substring match of the search term against the
name, and exact equality on status/category unless the filter is the
sentinel "All". -/
def specMatchClient (searchTerm statusFilter categoryFilter : String)
    (item : ClientLineSheetItem) : Prop :=
  (jsToLower searchTerm).data <:+: (jsToLower item.name).data ∧
  (statusFilter = "All" ∨ item.status = statusFilter) ∧
  (categoryFilter = "All" ∨ item.category = categoryFilter)

/-- Spec-side reading of the Filter Engine contract for an internal
record. -/
def specMatchInternal (searchTerm statusFilter categoryFilter : String)
    (item : InternalLineSheetItem) : Prop :=
  (jsToLower searchTerm).data <:+: (jsToLower item.name).data ∧
  (statusFilter = "All" ∨ item.status = statusFilter) ∧
  (categoryFilter = "All" ∨ item.category = categoryFilter)

/-- Truncation toward zero of a rational, the spec's reading of
"fractional input is truncated toward zero". -/
def specTrunc (q : ℚ) : Int :=
  if 0 ≤ q then ⌊q⌋ else ⌈q⌉

/-- The rational denoted by an (optionally negated) decimal-fraction
literal `ds.fs`. -/
def ratOfDecimal (neg : Bool) (ds fs : List Char) : ℚ :=
  (if neg then -1 else 1) * ((natOfDec ds : ℚ) + (natOfDec fs : ℚ) / (10 : ℚ) ^ fs.length)

/-- A concrete client record, used as a previously loaded batch in
counterexample states. -/
def demoClientItem : ClientLineSheetItem where
  id := 1
  name := "shirt"
  balance := 0
  minOrderQuantity := 5
  sampleLeadTime := "2w"
  bulkLeadTime := ""
  status := "Active"
  sizes := "S,M"
  fabricMaterial := "cotton"
  category := "Tops"
  imageUrl := ""

/-- A parse result carrying one structural error and no data. -/
def errResult : ParseResult where
  errors := ["Quotes: unterminated quoted field"]
  data := []

/-- A client state with a loaded batch, a search term and a non-initial
page, used to attest the C10 frame property. -/
def demoClientState : ClientState :=
  { clientInit with items := [demoClientItem], currentPage := 2, searchTerm := "sh" }

/-- Ten well-formed CSV rows named "shirt", already header-normalized. -/
def goodRows : List RawRow := List.replicate 10 [("name", "shirt")]

/-- An error-free parse result carrying the ten rows. -/
def goodResult : ParseResult where
  errors := []
  data := goodRows

/-- A reachable client state obtained by ingesting ten rows (two pages
at page size 9), navigating to page 2, then searching for a term that
matches nothing. -/
def c3BadState : ClientState :=
  clientStep (ClientEvent.setSearch "zzz")
    (clientStep ClientEvent.nextPage
      (clientStep (ClientEvent.ingest goodResult) clientInit))

/-- C8: the internal variant's margin function returns 0 when the
factory cost is 0 (for every production cost), and otherwise returns
`(productionCost - factoryCost) / factoryCost * 100`. -/
theorem margin_contract (p f : ℚ) :
    (f = 0 → calculateMargin p f = 0) ∧
    (f ≠ 0 → calculateMargin p f = (p - f) / f * 100) := by
  constructor
  · intro h
    simp [calculateMargin, h]
  · intro h
    simp [calculateMargin, h]

/-- Witness for C8: the margin function evaluated at a zero factory
cost and at `(150, 100)`. -/
theorem margin_contract_attest :
    calculateMargin (-7) 0 = 0 ∧ calculateMargin 150 100 = 50 := by
  refine ⟨(margin_contract (-7) 0).1 rfl, ?_⟩
  rw [(margin_contract 150 100).2 (by norm_num)]
  norm_num

/-- C9: filtering is idempotent in both variants: applying the filter
with the same `(searchTerm, statusFilter, categoryFilter)` to its own
output yields the same result as applying it once. -/
theorem filter_idempotent :
    (∀ (searchTerm statusFilter categoryFilter : String)
        (items : List ClientLineSheetItem),
      clientFilter searchTerm statusFilter categoryFilter
          (clientFilter searchTerm statusFilter categoryFilter items) =
        clientFilter searchTerm statusFilter categoryFilter items) ∧
    (∀ (searchTerm statusFilter categoryFilter : String)
        (items : List InternalLineSheetItem),
      internalFilter searchTerm statusFilter categoryFilter
          (internalFilter searchTerm statusFilter categoryFilter items) =
        internalFilter searchTerm statusFilter categoryFilter items) := by
  constructor <;> intro a b c items <;>
    simp [clientFilter, internalFilter, List.filter_filter]

/-- C5: in both variants the filter returns exactly the records whose
name contains the search term as a case-insensitive substring (empty
term matches everything, being a substring of every name), whose status
equals the status filter unless it is "All", and whose category equals
the category filter unless it is "All"; and the result is an ordered
subsequence of the input, preserving batch order. -/
theorem filter_engine_exact :
    (∀ (searchTerm statusFilter categoryFilter : String)
        (items : List ClientLineSheetItem),
      (∀ item, item ∈ clientFilter searchTerm statusFilter categoryFilter items ↔
          item ∈ items ∧ specMatchClient searchTerm statusFilter categoryFilter item) ∧
      (clientFilter searchTerm statusFilter categoryFilter items).Sublist items) ∧
    (∀ (searchTerm statusFilter categoryFilter : String)
        (items : List InternalLineSheetItem),
      (∀ item, item ∈ internalFilter searchTerm statusFilter categoryFilter items ↔
          item ∈ items ∧ specMatchInternal searchTerm statusFilter categoryFilter item) ∧
      (internalFilter searchTerm statusFilter categoryFilter items).Sublist items) := by
  constructor <;> intro searchTerm statusFilter categoryFilter items <;> constructor
  · intro item
    simp [clientFilter, List.mem_filter, clientFilterPred, specMatchClient, jsIncludes,
      and_assoc]
  · exact List.filter_sublist items
  · intro item
    simp [internalFilter, List.mem_filter, internalFilterPred, specMatchInternal, jsIncludes,
      and_assoc]
  · exact List.filter_sublist items

/-- C4 fails on the code: in the client variant the search input's
`onChange` only calls `setSearchTerm`; at a state with `currentPage = 2`
a search-term change leaves the page at 2 instead of resetting it
to 1. -/
theorem client_filter_no_page_reset_cex :
    (clientStep (ClientEvent.setSearch "a")
        { clientInit with currentPage := 2 }).currentPage = 2 ∧
      (2 : Int) ≠ 1 := by
  exact ⟨rfl, by decide⟩

/-- C4 amended: in the client variant, the `searchTerm`,
`categoryFilter` and `statusFilter` handlers set only their own field
and leave `currentPage` (and everything else) unchanged — no reset
to 1 occurs. -/
theorem client_filter_handlers_keep_page (s : ClientState) (v : String) :
    (clientStep (ClientEvent.setSearch v) s).currentPage = s.currentPage ∧
    (clientStep (ClientEvent.setCategory v) s).currentPage = s.currentPage ∧
    (clientStep (ClientEvent.setStatus v) s).currentPage = s.currentPage ∧
    (clientStep (ClientEvent.setSearch v) s).searchTerm = v ∧
    (clientStep (ClientEvent.setCategory v) s).categoryFilter = v ∧
    (clientStep (ClientEvent.setStatus v) s).statusFilter = v :=
  ⟨rfl, rfl, rfl, rfl, rfl, rfl⟩

/-- C2 fails on the code: a failed re-upload does not leave the record
set cleared.  At a state holding a previously loaded batch, the error
branch of the `complete` callback only sets the message, so the batch
is still present (non-empty) afterwards. -/
theorem failed_upload_keeps_batch_cex :
    errResult.errors.length > 0 ∧
    (clientStep (ClientEvent.ingest errResult)
        { clientInit with items := [demoClientItem] }).items ≠ [] := by
  exact ⟨by decide, by decide⟩

/-- C2 amended: when the parse reports structural errors, both variants
set the user-visible error message, install no new record set, and
leave the previously loaded batch unchanged (kept, not cleared). -/
theorem failed_upload_effect (r : ParseResult) (cs : ClientState) (is : InternalState)
    (h : r.errors.length > 0) :
    (clientStep (ClientEvent.ingest r) cs).error = some parseErrorMsg ∧
    (clientStep (ClientEvent.ingest r) cs).items = cs.items ∧
    (internalStep (InternalEvent.ingest r) is).error = some parseErrorMsg ∧
    (internalStep (InternalEvent.ingest r) is).items = is.items := by
  simp [clientStep, internalStep, clientComplete, internalComplete, h]

/-- Witness for the amended C2 at the concrete one-error parse result
and the initial states. -/
theorem failed_upload_effect_attest :
    errResult.errors.length > 0 ∧
    ((clientStep (ClientEvent.ingest errResult) clientInit).error = some parseErrorMsg ∧
     (clientStep (ClientEvent.ingest errResult) clientInit).items = clientInit.items ∧
     (internalStep (InternalEvent.ingest errResult) internalInit).error = some parseErrorMsg ∧
     (internalStep (InternalEvent.ingest errResult) internalInit).items = internalInit.items) :=
  ⟨by decide, failed_upload_effect errResult clientInit internalInit (by decide)⟩

/-- C10: when the parse reports structural errors, every piece of view
state other than the error message is unchanged in both variants — the
items, search term, category and status filters, current page, and (in
the client variant) the view mode keep their prior values; only the
error string is set. -/
theorem failed_upload_frame (r : ParseResult) (cs : ClientState) (is : InternalState)
    (h : r.errors.length > 0) :
    (clientStep (ClientEvent.ingest r) cs).items = cs.items ∧
    (clientStep (ClientEvent.ingest r) cs).searchTerm = cs.searchTerm ∧
    (clientStep (ClientEvent.ingest r) cs).categoryFilter = cs.categoryFilter ∧
    (clientStep (ClientEvent.ingest r) cs).statusFilter = cs.statusFilter ∧
    (clientStep (ClientEvent.ingest r) cs).currentPage = cs.currentPage ∧
    (clientStep (ClientEvent.ingest r) cs).viewMode = cs.viewMode ∧
    (clientStep (ClientEvent.ingest r) cs).error = some parseErrorMsg ∧
    (internalStep (InternalEvent.ingest r) is).items = is.items ∧
    (internalStep (InternalEvent.ingest r) is).searchTerm = is.searchTerm ∧
    (internalStep (InternalEvent.ingest r) is).categoryFilter = is.categoryFilter ∧
    (internalStep (InternalEvent.ingest r) is).statusFilter = is.statusFilter ∧
    (internalStep (InternalEvent.ingest r) is).currentPage = is.currentPage ∧
    (internalStep (InternalEvent.ingest r) is).error = some parseErrorMsg := by
  simp [clientStep, internalStep, clientComplete, internalComplete, h]

/-- Witness for C10 at the concrete one-error parse result and a state
with a loaded batch and non-default filters. -/
theorem failed_upload_frame_attest :
    errResult.errors.length > 0 ∧
    (clientStep (ClientEvent.ingest errResult) demoClientState).items = [demoClientItem] := by
  refine ⟨by decide, ?_⟩
  exact (failed_upload_frame errResult demoClientState internalInit (by decide)).1

/-- `Math.ceil(n / m)` agrees with natural ceiling division. -/
theorem mathCeilDiv_eq (n m : Nat) (hm : 0 < m) :
    mathCeilDiv n m = (((n + m - 1) / m : ℕ) : Int) := by
  have hmQ : (0 : ℚ) < (m : ℚ) := by exact_mod_cast hm
  unfold mathCeilDiv
  rw [Int.ceil_eq_iff]
  have h1 : ((n + m - 1) / m) * m ≤ n + m - 1 := Nat.div_mul_le_self _ _
  have h2 : n + m - 1 < ((n + m - 1) / m + 1) * m :=
    (Nat.div_lt_iff_lt_mul hm).mp (Nat.lt_succ_self _)
  have hge : 1 ≤ n + m := by omega
  have hcast : ((n + m - 1 : ℕ) : ℚ) = (n : ℚ) + (m : ℚ) - 1 := by
    rw [Nat.cast_sub hge]
    push_cast
    ring
  have h1Q : ((((n + m - 1) / m : ℕ)) : ℚ) * m ≤ (n : ℚ) + (m : ℚ) - 1 := by
    have := (Nat.cast_le (α := ℚ)).mpr h1
    push_cast at this
    rw [hcast] at this
    exact this
  have h2' : n ≤ ((n + m - 1) / m) * m := by
    have ha : n + m - 1 + 1 ≤ ((n + m - 1) / m + 1) * m := Nat.succ_le_of_lt h2
    have hb : n + m - 1 + 1 = n + m := by omega
    have hc : ((n + m - 1) / m + 1) * m = ((n + m - 1) / m) * m + m := by ring
    rw [hb, hc] at ha
    exact Nat.le_of_add_le_add_right ha
  have h2Q : (n : ℚ) ≤ ((((n + m - 1) / m : ℕ)) : ℚ) * m := by
    have := (Nat.cast_le (α := ℚ)).mpr h2'
    push_cast at this
    exact this
  constructor
  · rw [lt_div_iff₀ hmQ, Int.cast_natCast]
    have hexp : ((((n + m - 1) / m : ℕ)) : ℚ) * m - m =
        (((((n + m - 1) / m : ℕ)) : ℚ) - 1) * m := by ring
    linarith [hexp]
  · rw [div_le_iff₀ hmQ, Int.cast_natCast]
    linarith

/-- `Array.prototype.slice(a, b)` with non-negative in-order bounds is
drop-then-take. -/
theorem jsSlice_eq_drop_take {α : Type} (l : List α) (a b : Int)
    (ha : 0 ≤ a) (hab : a ≤ b) :
    jsSlice l a b = (l.drop a.toNat).take (b - a).toNat := by
  simp only [jsSlice]
  rw [if_neg (by omega), if_neg (by omega)]
  rcases le_or_lt a (l.length : Int) with h | h
  · have h1 : (min a (l.length : Int)).toNat = a.toNat := by omega
    have h2 : (min b (l.length : Int)).toNat = min b.toNat l.length := by omega
    rw [h1, h2, List.take_drop]
    have h3 : a.toNat + (b - a).toNat = b.toNat := by omega
    rw [h3]
    congr 1
    rcases le_or_lt b.toNat l.length with h4 | h4
    · rw [min_eq_left h4]
    · rw [min_eq_right (le_of_lt h4), List.take_length,
        List.take_of_length_le (le_of_lt h4)]
  · have h1 : (min a (l.length : Int)).toNat = l.length := by omega
    have h2 : (min b (l.length : Int)).toNat = l.length := by omega
    rw [h1, h2, List.take_length, List.drop_length]
    have h3 : l.drop a.toNat = [] := List.drop_eq_nil_iff.mpr (by omega)
    rw [h3, List.take_nil]

/-- C6: for every view state with a 1-based current page, in both
variants (page size 9 client, 10 internal): `totalPages` is the ceiling
of `filteredCount / pageSize` (equivalently, natural ceiling division);
the displayed items are the slice `[(currentPage-1)*pageSize,
currentPage*pageSize)` of the filtered sequence; zero filtered items
give zero total pages and an empty slice; and the 1-based display range
is `[startIndex+1, min(startIndex+pageSize, filteredCount)]`. -/
theorem paginator_contract (cs : ClientState) (is : InternalState)
    (hc : 1 ≤ cs.currentPage) (hi : 1 ≤ is.currentPage) :
    (clientTotalPages cs = ⌈((clientFilteredItems cs).length : ℚ) / 9⌉ ∧
     clientTotalPages cs = ((((clientFilteredItems cs).length + 8) / 9 : ℕ) : Int) ∧
     clientDisplayedItems cs =
       ((clientFilteredItems cs).drop (clientStartIndex cs).toNat).take 9 ∧
     (clientFilteredItems cs = [] →
       clientTotalPages cs = 0 ∧ clientDisplayedItems cs = []) ∧
     clientRangeLow cs = clientStartIndex cs + 1 ∧
     clientRangeHigh cs =
       min (clientStartIndex cs + 9) ((clientFilteredItems cs).length : Int)) ∧
    (internalTotalPages is = ⌈((internalFilteredItems is).length : ℚ) / 10⌉ ∧
     internalTotalPages is = ((((internalFilteredItems is).length + 9) / 10 : ℕ) : Int) ∧
     internalDisplayedItems is =
       ((internalFilteredItems is).drop (internalStartIndex is).toNat).take 10 ∧
     (internalFilteredItems is = [] →
       internalTotalPages is = 0 ∧ internalDisplayedItems is = []) ∧
     internalRangeLow is = internalStartIndex is + 1 ∧
     internalRangeHigh is =
       min (internalStartIndex is + 10) ((internalFilteredItems is).length : Int)) := by
  have hs9 : (0 : Int) ≤ clientStartIndex cs := by
    unfold clientStartIndex
    omega
  have hs10 : (0 : Int) ≤ internalStartIndex is := by
    unfold internalStartIndex
    omega
  refine ⟨⟨rfl, mathCeilDiv_eq _ 9 (by norm_num), ?_, ?_, rfl, rfl⟩,
          ⟨rfl, mathCeilDiv_eq _ 10 (by norm_num), ?_, ?_, rfl, rfl⟩⟩
  · rw [clientDisplayedItems,
      jsSlice_eq_drop_take (clientFilteredItems cs) _ _ hs9 (by omega)]
    have h9 : (clientStartIndex cs + 9 - clientStartIndex cs).toNat = 9 := by omega
    rw [h9]
  · intro h
    constructor
    · rw [clientTotalPages, h]
      simp [mathCeilDiv]
    · rw [clientDisplayedItems, h]
      simp [jsSlice]
  · rw [internalDisplayedItems,
      jsSlice_eq_drop_take (internalFilteredItems is) _ _ hs10 (by omega)]
    have h10 : (internalStartIndex is + 10 - internalStartIndex is).toNat = 10 := by omega
    rw [h10]
  · intro h
    constructor
    · rw [internalTotalPages, h]
      simp [mathCeilDiv]
    · rw [internalDisplayedItems, h]
      simp [jsSlice]

/-- Witness for C6 at the initial states (current page 1). -/
theorem paginator_contract_attest :
    (1 : Int) ≤ clientInit.currentPage ∧ (1 : Int) ≤ internalInit.currentPage ∧
    clientDisplayedItems clientInit =
      ((clientFilteredItems clientInit).drop (clientStartIndex clientInit).toNat).take 9 :=
  ⟨by decide, by decide,
    (paginator_contract clientInit internalInit (by decide) (by decide)).1.2.2.1⟩

/-- C3 fails on the code: the reachable client state `c3BadState` —
ingest ten matching rows, go to page 2, then search for "zzz" (zero
matches) — has `currentPage = 2` while `max 1 totalPages = 1`: no
handler re-clamps the page when a filter change shrinks the filtered
set. -/
theorem page_bounds_invariant_cex :
    ClientReachable c3BadState ∧
    ¬ (1 ≤ c3BadState.currentPage ∧
        c3BadState.currentPage ≤ max 1 (clientTotalPages c3BadState)) := by
  have hlen10 :
      (clientFilteredItems (clientComplete goodResult clientInit)).length = 10 := by decide
  have htp1 : clientTotalPages (clientComplete goodResult clientInit) = 2 := by
    rw [clientTotalPages, hlen10, mathCeilDiv_eq 10 9 (by norm_num)]
    norm_num
  have hcp1 : (clientComplete goodResult clientInit).currentPage = 1 := by decide
  have hs2 : clientStep ClientEvent.nextPage
        (clientStep (ClientEvent.ingest goodResult) clientInit) =
      { clientComplete goodResult clientInit with currentPage := 2 } := by
    simp only [clientStep]
    rw [if_pos ⟨by rw [htp1]; norm_num, by rw [hcp1, htp1]; norm_num⟩, hcp1, htp1]
    norm_num
  have hbad : c3BadState =
      { clientComplete goodResult clientInit with
          currentPage := 2, searchTerm := "zzz" } := by
    rw [c3BadState, hs2]
    simp [clientStep]
  have hfil0 :
      (clientFilteredItems
        { clientComplete goodResult clientInit with
            currentPage := 2, searchTerm := "zzz" }).length = 0 := by decide
  have htp3 : clientTotalPages c3BadState = 0 := by
    rw [hbad, clientTotalPages, hfil0]
    simp [mathCeilDiv]
  have hcp3 : c3BadState.currentPage = 2 := by
    rw [hbad]
  constructor
  · exact ClientReachable.step
      (ClientReachable.step
        (ClientReachable.step ClientReachable.init (ClientEvent.ingest goodResult))
        ClientEvent.nextPage)
      (ClientEvent.setSearch "zzz")
  · rw [hcp3, htp3]
    decide

/-- C3 amended: in every reachable state of either variant
`currentPage ≥ 1` (the navigation handlers clamp at click time), but
operations that change the filtered set size do not re-clamp, so the
upper bound `max 1 totalPages` can be exceeded (see the
counterexample). -/
theorem page_lower_bound_reachable :
    (∀ s : ClientState, ClientReachable s → 1 ≤ s.currentPage) ∧
    (∀ s : InternalState, InternalReachable s → 1 ≤ s.currentPage) := by
  constructor
  · intro s h
    induction h with
    | init => decide
    | step hprev e ih =>
      cases e with
      | ingest r =>
        by_cases hc : r.errors.length > 0 <;>
          simpa [clientStep, clientComplete, hc] using ih
      | setSearch v => simpa [clientStep] using ih
      | setCategory v => simpa [clientStep] using ih
      | setStatus v => simpa [clientStep] using ih
      | setView v => simpa [clientStep] using ih
      | prevPage =>
        simp only [clientStep]
        split
        · simp
        · exact ih
      | nextPage =>
        simp only [clientStep]
        split
        · rename_i hcond
          simp only []
          omega
        · exact ih
  · intro s h
    induction h with
    | init => decide
    | step hprev e ih =>
      cases e with
      | ingest r =>
        by_cases hc : r.errors.length > 0 <;>
          simpa [internalStep, internalComplete, hc] using ih
      | setSearch v => simpa [internalStep] using ih
      | setCategory v => simpa [internalStep] using ih
      | setStatus v => simpa [internalStep] using ih
      | prevPage =>
        simp only [internalStep]
        split
        · simp
        · exact ih
      | nextPage =>
        simp only [internalStep]
        split
        · rename_i hcond
          simp only []
          omega
        · exact ih

/-- Witness for the amended C3 at the reachable state `c3BadState`. -/
theorem page_lower_bound_reachable_attest :
    (1 : Int) ≤ c3BadState.currentPage :=
  (page_lower_bound_reachable).1 c3BadState
    (ClientReachable.step
      (ClientReachable.step
        (ClientReachable.step ClientReachable.init (ClientEvent.ingest goodResult))
        ClientEvent.nextPage)
      (ClientEvent.setSearch "zzz"))

/-- A decimal digit has code point between 48 and 57. -/
theorem digit_bounds {c : Char} (h : c.isDigit = true) :
    48 ≤ c.toNat ∧ c.toNat ≤ 57 := by
  simp only [Char.isDigit, Bool.and_eq_true, decide_eq_true_eq] at h
  obtain ⟨h1, h2⟩ := h
  rw [ge_iff_le, UInt32.le_def, BitVec.le_def] at h1
  rw [UInt32.le_def, BitVec.le_def] at h2
  exact ⟨h1, h2⟩

/-- A digit character differs from any non-digit character. -/
theorem isDigit_ne_of {c t : Char} (h : c.isDigit = true) (ht : t.isDigit = false) :
    c ≠ t := by
  intro e
  rw [e, ht] at h
  cases h

/-- Digit characters are not JS whitespace. -/
theorem digit_not_ws {c : Char} (h : c.isDigit = true) : isJsWhitespace c = false := by
  simp [isJsWhitespace,
    isDigit_ne_of h (show (' ').isDigit = false by decide),
    isDigit_ne_of h (show ('\t').isDigit = false by decide),
    isDigit_ne_of h (show ('\n').isDigit = false by decide),
    isDigit_ne_of h (show ('\r').isDigit = false by decide),
    isDigit_ne_of h (show ('\x0b').isDigit = false by decide),
    isDigit_ne_of h (show ('\x0c').isDigit = false by decide)]

/-- A list whose second element is neither `x` nor `X` carries no hex
marker. -/
theorem hasHexMark_no_x {a b : Char} (h1 : b ≠ 'x') (h2 : b ≠ 'X') (rest : List Char) :
    hasHexMark (a :: b :: rest) = false := by
  simp [hasHexMark, h1, h2]

/-- The digit run at the head of `ds ++ '.' :: fs` is exactly `ds`. -/
theorem takeWhile_digits_dot (ds fs : List Char) (hd : ∀ c ∈ ds, c.isDigit = true) :
    (ds ++ '.' :: fs).takeWhile Char.isDigit = ds := by
  induction ds with
  | nil => simp
  | cons d ds' ih =>
    rw [List.cons_append, List.takeWhile_cons, if_pos (hd d (List.mem_cons_self d ds'))]
    rw [ih (fun c hc => hd c (List.mem_cons_of_mem d hc))]

/-- The value of a digit string is below `10 ^ length`. -/
theorem natOfDec_lt (fs : List Char) (hf : ∀ c ∈ fs, c.isDigit = true) :
    natOfDec fs < 10 ^ fs.length := by
  induction fs with
  | nil => simp [natOfDec]
  | cons c cs ih =>
    have h9 : c.toNat - 48 ≤ 9 := by
      have := digit_bounds (hf c (List.mem_cons_self c cs))
      omega
    have ihv : natOfDec cs < 10 ^ cs.length :=
      ih (fun x hx => hf x (List.mem_cons_of_mem c hx))
    calc natOfDec (c :: cs)
        = (c.toNat - 48) * 10 ^ cs.length + natOfDec cs := rfl
      _ ≤ 9 * 10 ^ cs.length + natOfDec cs :=
          Nat.add_le_add_right (Nat.mul_le_mul_right _ h9) _
      _ < 9 * 10 ^ cs.length + 10 ^ cs.length := Nat.add_lt_add_left ihv _
      _ = 10 ^ (cs.length + 1) := by ring
      _ = 10 ^ (c :: cs).length := by rw [List.length_cons]

/-- `parseInt` on an optionally negated decimal-fraction literal stops
at the dot: it returns the signed value of the integer digit run. -/
theorem jsParseInt_decimal (neg : Bool) (ds fs : List Char) (hne : ds ≠ [])
    (hd : ∀ c ∈ ds, c.isDigit = true) :
    jsParseInt (String.mk ((if neg then ['-'] else []) ++ ds ++ '.' :: fs)) =
      some ((if neg then -1 else 1) * (natOfDec ds : Int)) := by
  obtain ⟨d, ds', rfl⟩ : ∃ d ds', ds = d :: ds' := by
    cases ds with
    | nil => exact absurd rfl hne
    | cons d ds' => exact ⟨d, ds', rfl⟩
  have hd0 : d.isDigit = true := hd d (List.mem_cons_self d ds')
  have hmark : hasHexMark ((d :: ds') ++ '.' :: fs) = false := by
    cases ds' with
    | nil =>
      rw [List.cons_append, List.nil_append]
      exact hasHexMark_no_x (by decide) (by decide) fs
    | cons d2 ds'' =>
      have hd2 : d2.isDigit = true := hd d2 (List.mem_cons_of_mem d (List.mem_cons_self d2 ds''))
      rw [List.cons_append, List.cons_append]
      exact hasHexMark_no_x (isDigit_ne_of hd2 (by decide)) (isDigit_ne_of hd2 (by decide)) _
  have hmag : jsParseIntMag ((d :: ds') ++ '.' :: fs) = some (natOfDec (d :: ds')) := by
    rw [jsParseIntMag, hmark]
    simp only [Bool.false_eq_true, if_false]
    rw [takeWhile_digits_dot _ _ hd]
    simp
  rw [List.cons_append] at hmag
  have hnotminus : d ≠ '-' := isDigit_ne_of hd0 (by decide)
  have hnotplus : d ≠ '+' := isDigit_ne_of hd0 (by decide)
  have hnotws : isJsWhitespace d = false := digit_not_ws hd0
  cases neg
  · simp only [Bool.false_eq_true, if_false, List.nil_append]
    simp [jsParseInt, jsSign, List.cons_append, List.dropWhile_cons, hnotws,
      hnotminus, hnotplus]
    rw [hmag]
  · have hmws : isJsWhitespace '-' = false := by decide
    simp only [if_pos rfl]
    simp [jsParseInt, jsSign, List.cons_append, List.dropWhile_cons, hmws]
    rw [hmag]

/-- Truncation toward zero of the value of a decimal-fraction literal
is the signed value of its integer digit run. -/
theorem specTrunc_ratOfDecimal (neg : Bool) (ds fs : List Char)
    (hf : ∀ c ∈ fs, c.isDigit = true) :
    specTrunc (ratOfDecimal neg ds fs) = (if neg then -1 else 1) * (natOfDec ds : Int) := by
  have hpow : (0 : ℚ) < (10 : ℚ) ^ fs.length := by positivity
  have hF0 : (0 : ℚ) ≤ (natOfDec fs : ℚ) / (10 : ℚ) ^ fs.length := by positivity
  have hF1 : (natOfDec fs : ℚ) / (10 : ℚ) ^ fs.length < 1 := by
    rw [div_lt_one hpow]
    exact_mod_cast natOfDec_lt fs hf
  have hfloor :
      ⌊(natOfDec ds : ℚ) + (natOfDec fs : ℚ) / (10 : ℚ) ^ fs.length⌋ =
        (natOfDec ds : Int) := by
    rw [Int.floor_nat_add, Int.floor_eq_zero_iff.mpr ⟨hF0, hF1⟩, add_zero]
  cases neg
  · simp only [ratOfDecimal, Bool.false_eq_true, if_false, one_mul]
    rw [specTrunc, if_pos (by positivity), hfloor]
  · simp only [ratOfDecimal, eq_self_iff_true, if_true]
    by_cases hz : (natOfDec ds : ℚ) + (natOfDec fs : ℚ) / (10 : ℚ) ^ fs.length = 0
    · have hds : (natOfDec ds : ℚ) = 0 := by
        have hI : (0 : ℚ) ≤ (natOfDec ds : ℚ) := Nat.cast_nonneg _
        linarith
      have hds' : natOfDec ds = 0 := by exact_mod_cast hds
      have hval : (-1 : ℚ) *
          ((natOfDec ds : ℚ) + (natOfDec fs : ℚ) / (10 : ℚ) ^ fs.length) = 0 := by
        rw [hz, mul_zero]
      rw [specTrunc, hval, if_pos le_rfl, Int.floor_zero, hds']
      norm_num
    · have hpos : 0 < (natOfDec ds : ℚ) + (natOfDec fs : ℚ) / (10 : ℚ) ^ fs.length :=
        lt_of_le_of_ne (by positivity) (Ne.symm hz)
      have hneg : (-1 : ℚ) *
          ((natOfDec ds : ℚ) + (natOfDec fs : ℚ) / (10 : ℚ) ^ fs.length) < 0 := by
        linarith
      rw [specTrunc, if_neg (not_le.mpr hneg), show
          (-1 : ℚ) * ((natOfDec ds : ℚ) + (natOfDec fs : ℚ) / (10 : ℚ) ^ fs.length) =
            -((natOfDec ds : ℚ) + (natOfDec fs : ℚ) / (10 : ℚ) ^ fs.length) from by ring,
        Int.ceil_neg, hfloor]
      ring

/-- C7: coercion is total by construction (it is a Lean function on all
rows) and never propagates a row-level error; for every row: a numeric
field (minOrderQuantity, balance, sampleCost, productionCost,
factoryCost) whose key is absent or whose value does not parse coerces
to 0; a decimal-fraction value for the integer field `minOrderQuantity`
is truncated toward zero; and a successfully parsed numeric value —
negative ones included — is stored as-is. -/
theorem coercion_defaults (row : RawRow) (i : Nat) :
    ((row.lookup "minOrderQuantity").bind jsParseInt = none →
      (coerceClient row i).minOrderQuantity = 0 ∧
      (coerceInternal row i).minOrderQuantity = 0) ∧
    ((row.lookup "balance").bind jsParseFloat = none →
      (coerceClient row i).balance = 0) ∧
    ((row.lookup "sampleCost").bind jsParseFloat = none →
      (coerceInternal row i).sampleCost = 0) ∧
    ((row.lookup "productionCost").bind jsParseFloat = none →
      (coerceInternal row i).productionCost = 0) ∧
    ((row.lookup "factoryCost").bind jsParseFloat = none →
      (coerceInternal row i).factoryCost = 0) ∧
    (∀ (v : String) (q : ℚ), row.lookup "balance" = some v → jsParseFloat v = some q →
      (coerceClient row i).balance = q) ∧
    (∀ (v : String) (q : ℚ), row.lookup "factoryCost" = some v → jsParseFloat v = some q →
      (coerceInternal row i).factoryCost = q) ∧
    (∀ (v : String) (k : Int), row.lookup "minOrderQuantity" = some v → jsParseInt v = some k →
      (coerceClient row i).minOrderQuantity = k ∧
      (coerceInternal row i).minOrderQuantity = k) ∧
    (∀ (neg : Bool) (ds fs : List Char), ds ≠ [] →
      (∀ c ∈ ds, c.isDigit = true) → (∀ c ∈ fs, c.isDigit = true) →
      row.lookup "minOrderQuantity" =
        some (String.mk ((if neg then ['-'] else []) ++ ds ++ '.' :: fs)) →
      (coerceClient row i).minOrderQuantity = specTrunc (ratOfDecimal neg ds fs) ∧
      (coerceInternal row i).minOrderQuantity = specTrunc (ratOfDecimal neg ds fs)) := by
  refine ⟨?_, ?_, ?_, ?_, ?_, ?_, ?_, ?_, ?_⟩
  · intro h
    constructor <;> simp [coerceClient, coerceInternal, jsParseIntOr0, h]
  · intro h
    simp [coerceClient, jsParseFloatOr0, h]
  · intro h
    simp [coerceInternal, jsParseFloatOr0, h]
  · intro h
    simp [coerceInternal, jsParseFloatOr0, h]
  · intro h
    simp [coerceInternal, jsParseFloatOr0, h]
  · intro v q hv hq
    simp [coerceClient, jsParseFloatOr0, hv, hq]
  · intro v q hv hq
    simp [coerceInternal, jsParseFloatOr0, hv, hq]
  · intro v k hv hk
    constructor <;> simp [coerceClient, coerceInternal, jsParseIntOr0, hv, hk]
  · intro neg ds fs hne hd hf hlook
    have hp := jsParseInt_decimal neg ds fs hne hd
    have ht := specTrunc_ratOfDecimal neg ds fs hf
    rw [List.append_assoc] at hp
    constructor <;>
      simp [coerceClient, coerceInternal, jsParseIntOr0, hlook, hp, ht]

/-- Witness for C7: the fractional value "-3.7" is truncated toward
zero, an unparseable balance defaults to 0, and an absent
`factoryCost` key (the row only carries the normalized all-lowercase
key) defaults to 0. -/
theorem coercion_defaults_attest :
    (coerceClient [("minOrderQuantity", "-3.7")] 0).minOrderQuantity =
      specTrunc (ratOfDecimal true ['3'] ['7']) ∧
    (coerceClient [("balance", "abc")] 1).balance = 0 ∧
    (coerceInternal [("factorycost", "12")] 2).factoryCost = 0 := by
  refine ⟨?_, ?_, ?_⟩
  · exact ((coercion_defaults [("minOrderQuantity", "-3.7")] 0).2.2.2.2.2.2.2.2
      true ['3'] ['7'] (by decide) (by decide) (by decide) (by decide)).1
  · exact (coercion_defaults [("balance", "abc")] 1).2.1 (by decide)
  · exact (coercion_defaults [("factorycost", "12")] 2).2.2.2.2.1 (by decide)

/-- C1 fails on the code (code bug): `transformHeader` collapses every
variant of "Min Order Quantity" to the all-lowercase key
"minorderquantity" — the normalizer half of the claim holds — but both
coercers read the camelCase property `row.minOrderQuantity`, which no
normalized key can ever equal, so a numeric cell under any header
variant coerces to 0 instead of its parsed value (here "5", which
`parseInt` does parse as 5). -/
theorem header_normalization_mismatch :
    transformHeader "Min Order Quantity" = "minorderquantity" ∧
    transformHeader "minOrderQuantity" = "minorderquantity" ∧
    transformHeader "MIN ORDER QUANTITY" = "minorderquantity" ∧
    jsParseInt "5" = some 5 ∧
    (coerceClient (buildRow ["Min Order Quantity"] ["5"]) 0).minOrderQuantity = 0 ∧
    (coerceClient (buildRow ["minOrderQuantity"] ["5"]) 0).minOrderQuantity = 0 ∧
    (coerceClient (buildRow ["MIN ORDER QUANTITY"] ["5"]) 0).minOrderQuantity = 0 ∧
    (coerceInternal (buildRow ["Min Order Quantity"] ["5"]) 0).minOrderQuantity = 0 := by
  decide

end LineSheet
